import Mathlib

/-!
Verification of the KladosJobDO job lifecycle controller
(src/unnamed/part_000, with src/src/index.ts and src/src/job.ts as callers).

The durable object keeps a singleton SQLite row `job_state` (id = 1); we model
the row as `Option JobState` (`none` = no row inserted yet).  The collaborators
invoked during one `alarm()` run (`writeKladosLog`, `processJob`, the rhiza
entity fetch, `interpretThen`, `updateLogWithHandoffs`, `updateLogStatus`,
`failKlados`) are external to the controller; one alarm invocation's behaviour
of each is captured in an `AlarmEnv`, with `Except String` for calls that may
throw (the thrown value's message, as produced by
`error instanceof Error ? error.message : String(error)`).

Durable side effects (SQL writes, alarm scheduling, collaborator calls) are
recorded in an effect trace so that claims about "no side effects" and
"invoked exactly once" are statable.  In-memory `logger` calls and the pure
`ArkeClient` construction are not durable effects and are not traced.

The stored TEXT columns `request` and `config` hold JSON of values the
controller itself serialized at insert time, so the model stores the parsed
values directly and `JSON.parse` at alarm entry always succeeds.
-/

namespace KladosDO

/-- Job status state machine (part_000 line 44):
`accepted | processing | done | error`. -/
inductive JobStatus where
  | accepted
  | processing
  | done
  | error
deriving DecidableEq, Repr

/-- The `rhiza` member of a `KladosRequest`: the workflow position data the
controller reads (part_000 lines 195, 203-205, 243-274). -/
structure RhizaInfo where
  id : String
  path : Option (List String)
  parent_logs : Option (List String)
  batch : Option String
  scatter_total : Option Nat
deriving DecidableEq, Repr

/-- The fields of `KladosRequest` the controller reads. -/
structure KladosRequest where
  job_id : String
  api_base : String
  network : Option String
  job_collection : String
  target_entity : Option String
  target_entities : Option (List String)
  target_collection : Option String
  rhiza : Option RhizaInfo
deriving DecidableEq, Repr

/-- Job configuration passed from the worker (part_000 lines 35-39). -/
structure KladosJobConfig where
  agentId : String
  agentVersion : String
  authToken : String
deriving DecidableEq, Repr

/-- The singleton `job_state` row (part_000 lines 66-75).  `request` and
`config` are stored serialized; we keep the parsed values. -/
structure JobState where
  request : KladosRequest
  config : KladosJobConfig
  log_id : String
  log_file_id : Option String
  status : JobStatus
  created_at : String
  error : Option String
deriving DecidableEq, Repr

/-- A workflow step as the controller sees it: only its `then` directive
matters (part_000 line 258); the directive itself is opaque. -/
structure FlowStep where
  thenDirective : Option String
deriving DecidableEq, Repr

/-- The rhiza entity's relevant content: `properties.flow`, possibly absent
(part_000 line 253).  A record keyed by step name is an association list. -/
structure RhizaEntity where
  flow : Option (List (String × FlowStep))
deriving DecidableEq, Repr

/-- Result returned from `processJob` (src/src/job.ts lines 42-48):
optional output ids and an optional reschedule flag (absent = false). -/
structure ProcessResult where
  outputs : Option (List String)
  reschedule : Bool
deriving DecidableEq, Repr

/-- Result of `interpretThen` (part_000 lines 279-286). -/
structure HandoffResult where
  action : String
  target : Option String
  targetType : Option String
  handoffRecord : Option String
deriving DecidableEq, Repr

/-- Durable side effects of the controller, in program order. -/
inductive Effect where
  | insertRow
  | setAlarm (time : Nat)
  | writeKladosLog (logId : String)
  | setLogFileId (fileId : String)
  | processJobCall
  | fetchRhiza (id : String)
  | interpretThenCall
  | updateLogWithHandoffs (fileId record : String)
  | updateLogStatusDone (fileId : String)
  | failKladosCall (fileId : String)
  | updateStatus (s : JobStatus)
deriving DecidableEq, Repr

/-- Behaviour of the clock and of each external collaborator during one
`alarm()` invocation.  `fetchRhiza = none` models
`rhizaError || !rhizaEntity` at part_000 line 249. -/
structure AlarmEnv where
  now : Nat
  writeKladosLog : Except String String
  processJob : Except String ProcessResult
  fetchRhiza : Option RhizaEntity
  interpretThen : Except String HandoffResult
  updateLogWithHandoffs : Except String Unit
  updateLogStatus : Except String Unit
  failKlados : Except String Unit
deriving Repr

/-- Response of `/start` (part_000 lines 112-115, 136-139). -/
structure StartResponse where
  accepted : Bool
  job_id : String
deriving DecidableEq, Repr

/-- State, trace and response produced by `handleStart`. -/
structure StartOut where
  st : Option JobState
  tr : List Effect
  resp : StartResponse
deriving Repr

/-- `handleStart` (part_000 lines 102-140).  `now`, `createdAt` and `genId`
stand for `Date.now()`, `new Date().toISOString()` and `generateId()`. -/
def handleStart (now : Nat) (createdAt : String) (genId : String)
    (request : KladosRequest) (config : KladosJobConfig)
    (s : Option JobState) : StartOut :=
  match s with
  | some row =>
    -- lines 110-116: already started, idempotent return, no side effects
    { st := some row, tr := [], resp := { accepted := true, job_id := request.job_id } }
  | none =>
    let logId := "log_" ++ genId
    let row : JobState :=
      { request := request, config := config, log_id := logId, log_file_id := none,
        status := .accepted, created_at := createdAt, error := none }
    { st := some row
      tr := [.insertRow, .setAlarm (now + 100)]
      resp := { accepted := true, job_id := request.job_id } }

/-- Response of `/status` (part_000 lines 145-155): a distinct 404
`not_found` result, or the persisted status and error. -/
inductive StatusResponse where
  | notFound
  | ok (status : JobStatus) (error : Option String)
deriving DecidableEq, Repr

/-- `handleStatus` (part_000 lines 145-155). -/
def handleStatus (s : Option JobState) : StatusResponse :=
  match s with
  | none => .notFound
  | some row => .ok row.status row.error

/-- JavaScript truthiness of a string: the empty string is falsy
(relevant at part_000 line 256, `if (currentStepName && flow)`). -/
def strTruthy (s : String) : Bool := s ≠ ""

/-- The workflow handoff block (part_000 lines 242-289).  Returns the
effects performed and either success or the thrown error's message.
It mutates no job state. -/
def handoffStep (env : AlarmEnv) (req : KladosRequest) (logFileId : String)
    (result : ProcessResult) : List Effect × Except String Unit :=
  match req.rhiza, result.outputs with
  | some rz, some _ =>
    -- line 243: `request.rhiza && result.outputs` (any array is truthy)
    let t := [Effect.fetchRhiza rz.id]
    match env.fetchRhiza with
    | none => (t, .error ("Failed to fetch rhiza: " ++ rz.id))
    | some ent =>
      -- line 254: `request.rhiza.path?.at(-1)`
      match rz.path.bind List.getLast?, ent.flow with
      | some stepName, some flow =>
        if strTruthy stepName then
          -- lines 257-258: `flow[currentStepName]` then `myStep?.then`
          match (List.lookup stepName flow).bind FlowStep.thenDirective with
          | some _ =>
            let t := t ++ [Effect.interpretThenCall]
            match env.interpretThen with
            | .error e => (t, .error e)
            | .ok h =>
              match h.handoffRecord with
              | some record =>
                let t := t ++ [Effect.updateLogWithHandoffs logFileId record]
                match env.updateLogWithHandoffs with
                | .error e => (t, .error e)
                | .ok _ => (t, .ok ())
              | none => (t, .ok ())
          | none => (t, .ok ())
        else (t, .ok ())
      | _, _ => (t, .ok ())
  | _, _ => ([], .ok ())

/-- Row, trace and outcome of the `try` block of `alarm()`. SQL writes made
before a throw stay applied (they are durable), hence `row` is returned
even on error. -/
structure TryOut where
  row : JobState
  tr : List Effect
  res : Except String Unit
deriving Repr

/-- part_000 lines 227-297: the part of the `try` block after the initial
log write.  `row2` already carries the (possibly fresh) `log_file_id`. -/
def afterLog (env : AlarmEnv) (row2 : JobState) (logFileId : String)
    (t : List Effect) : TryOut :=
  let t := t ++ [Effect.processJobCall]
  match env.processJob with
  | .error e => ⟨row2, t, .error e⟩
  | .ok result =>
    if result.reschedule then
      -- lines 236-240: reschedule and return
      ⟨row2, t ++ [Effect.setAlarm (env.now + 1000)], .ok ()⟩
    else
      match handoffStep env row2.request logFileId result with
      | (ht, .error e) => ⟨row2, t ++ ht, .error e⟩
      | (ht, .ok _) =>
        -- lines 291-297: finalize log, then set status done
        let t2 := t ++ ht ++ [Effect.updateLogStatusDone logFileId]
        match env.updateLogStatus with
        | .error e => ⟨row2, t2, .error e⟩
        | .ok _ => ⟨{ row2 with status := .done }, t2 ++ [Effect.updateStatus .done], .ok ()⟩

/-- The `try` block of `alarm()` (part_000 lines 187-297), starting from the
row already updated to `processing`. -/
def tryBody (env : AlarmEnv) (row1 : JobState) : TryOut :=
  match row1.log_file_id with
  | none =>
    -- lines 188-225: write initial log, then persist log_file_id
    match env.writeKladosLog with
    | .error e => ⟨row1, [Effect.writeKladosLog row1.log_id], .error e⟩
    | .ok fileId =>
      afterLog env { row1 with log_file_id := some fileId } fileId
        [Effect.writeKladosLog row1.log_id, Effect.setLogFileId fileId]
  | some lf => afterLog env row1 lf []

/-- Final state, trace and (possibly) escaping exception of one `alarm()`. -/
structure AlarmOut where
  st : Option JobState
  tr : List Effect
  exn : Option String
deriving Repr

/-- `alarm()` (part_000 lines 163-319).  The catch block (lines 299-318)
reads `row.log_file_id` from the row loaded at line 164, not the current
value, and its `failKlados` call is itself uncaught: if it throws, the
exception escapes (`exn`) and the error status is never persisted. -/
def alarm (env : AlarmEnv) (s : Option JobState) : AlarmOut :=
  match s with
  | none => ⟨none, [], none⟩
  | some row =>
    if row.status = .done ∨ row.status = .error then ⟨some row, [], none⟩
    else
      -- line 176: UPDATE status = 'processing'
      let row1 := { row with status := JobStatus.processing }
      let t0 := [Effect.updateStatus .processing]
      let out := tryBody env row1
      match out.res with
      | .ok _ => ⟨some out.row, t0 ++ out.tr, none⟩
      | .error e =>
        -- catch, lines 299-318; line 304 reads the stale row.log_file_id
        match row.log_file_id with
        | some lf =>
          match env.failKlados with
          | .error e2 => ⟨some out.row, t0 ++ out.tr ++ [Effect.failKladosCall lf], some e2⟩
          | .ok _ =>
            ⟨some { out.row with status := .error, error := some e },
             t0 ++ out.tr ++ [Effect.failKladosCall lf, Effect.updateStatus .error], none⟩
        | none =>
          ⟨some { out.row with status := .error, error := some e },
           t0 ++ out.tr ++ [Effect.updateStatus .error], none⟩

/-- One externally triggered operation on the actor. -/
inductive Op where
  | start (now : Nat) (createdAt : String) (genId : String)
      (request : KladosRequest) (config : KladosJobConfig)
  | resume (env : AlarmEnv)
  | query

/-- Apply one operation to the actor's state, returning the new state and
the durable effects performed. -/
def runOp : Op → Option JobState → Option JobState × List Effect
  | .start now c g req cfg, s =>
    let out := handleStart now c g req cfg s
    (out.st, out.tr)
  | .resume env, s =>
    let out := alarm env s
    (out.st, out.tr)
  | .query, s => (s, [])

/-- Apply a sequence of operations, accumulating the effect trace. -/
def runOps : List Op → Option JobState → Option JobState × List Effect
  | [], s => (s, [])
  | op :: ops, s =>
    let p := runOp op s
    let q := runOps ops p.1
    (q.1, p.2 ++ q.2)

/-- Effect classifiers used to state side-effect counting claims. -/
def Effect.isWriteKladosLog : Effect → Bool
  | .writeKladosLog _ => true
  | _ => false

def Effect.isFailKladosCall : Effect → Bool
  | .failKladosCall _ => true
  | _ => false

def Effect.isSetAlarm : Effect → Bool
  | .setAlarm _ => true
  | _ => false

def Effect.isInterpretThenCall : Effect → Bool
  | .interpretThenCall => true
  | _ => false

def Effect.isUpdateLogWithHandoffs : Effect → Bool
  | .updateLogWithHandoffs _ _ => true
  | _ => false

def Effect.isUpdateLogStatusDone : Effect → Bool
  | .updateLogStatusDone _ => true
  | _ => false

def Effect.isDoneUpdate : Effect → Bool
  | .updateStatus .done => true
  | _ => false

def Effect.isFetchRhiza : Effect → Bool
  | .fetchRhiza _ => true
  | _ => false

/-- A terminal status. -/
def JobStatus.isTerminal : JobStatus → Bool
  | .done => true
  | .error => true
  | _ => false

/-! Sample values used by witnesses. -/

def sampleReq : KladosRequest :=
  { job_id := "job1", api_base := "https://api", network := none,
    job_collection := "jc", target_entity := some "e1", target_entities := none,
    target_collection := some "tc", rhiza := none }

def sampleCfg : KladosJobConfig :=
  { agentId := "agent", agentVersion := "1", authToken := "tok" }

/-- The row `handleStart 0 "t0" "id1" sampleReq sampleCfg none` inserts. -/
def sampleRow : JobState :=
  { request := sampleReq, config := sampleCfg, log_id := "log_" ++ "id1",
    log_file_id := none, status := .accepted, created_at := "t0", error := none }

/-- A fully succeeding environment (no collaborator throws, no workflow). -/
def okEnv : AlarmEnv :=
  { now := 5, writeKladosLog := .ok "file1",
    processJob := .ok { outputs := some ["o1"], reschedule := false },
    fetchRhiza := none,
    interpretThen := .ok { action := "pass", target := none, targetType := none,
                           handoffRecord := none },
    updateLogWithHandoffs := .ok (), updateLogStatus := .ok (),
    failKlados := .ok () }

/-- An environment whose callback signals continue. -/
def contEnv : AlarmEnv :=
  { okEnv with processJob := .ok { outputs := none, reschedule := true } }

/-- An environment whose callback throws. -/
def c1env : AlarmEnv := { okEnv with processJob := .error "boom" }

/-- A row whose log record was already written in an earlier invocation. -/
def c4row : JobState := { sampleRow with log_file_id := some "f0" }

/-- An environment where the callback throws and the failure finalizer
itself throws. -/
def c4env : AlarmEnv :=
  { okEnv with processJob := .error "boom", failKlados := .error "net down" }

/-- An environment whose callback returns both a reschedule request and
non-empty outputs. -/
def c10env : AlarmEnv :=
  { okEnv with processJob := .ok { outputs := some ["o1"], reschedule := true } }

/-- A terminal sample row. -/
def doneRow : JobState := { sampleRow with status := JobStatus.done }

/-- The C8 invariant as a predicate on the actor's state. -/
def errorIffError (s : Option JobState) : Prop :=
  ∀ row : JobState, s = some row →
    (row.error ≠ none ↔ row.status = JobStatus.error)

/-! Helper lemmas about the shape of the `try` block's result. -/

/-- Case analysis on an `Option` producing an equation, without touching
occurrences in the goal. -/
theorem optionCases {α : Type} (o : Option α) : o = none ∨ ∃ x, o = some x := by
  cases o with
  | none => exact Or.inl rfl
  | some x => exact Or.inr ⟨x, rfl⟩

/-- Case analysis on an `Except` producing an equation, without touching
occurrences in the goal. -/
theorem exceptCases {ε α : Type} (x : Except ε α) :
    (∃ e, x = .error e) ∨ (∃ a, x = .ok a) := by
  cases x with
  | error e => exact Or.inl ⟨e, rfl⟩
  | ok a => exact Or.inr ⟨a, rfl⟩

/-- `afterLog` either leaves the row unchanged or only sets its status to
`done` (in the final ok branch). -/
theorem afterLog_row (env : AlarmEnv) (row2 : JobState) (lf : String)
    (t : List Effect) :
    (afterLog env row2 lf t).row = row2 ∨
    (afterLog env row2 lf t).row = { row2 with status := JobStatus.done } := by
  unfold afterLog
  cases hpj : env.processJob with
  | error e => left; rfl
  | ok r =>
    by_cases hr : r.reschedule
    · simp [hr]
    · simp only [hr, if_neg]
      cases hh : handoffStep env row2.request lf r with
      | mk ht hres =>
        cases hres with
        | error e => simp
        | ok u =>
          cases hus : env.updateLogStatus with
          | error e => simp [hus]
          | ok u2 => simp [hus]

/-- Reduction: the `try` block when a log record already exists. -/
theorem tryBody_some (env : AlarmEnv) (row1 : JobState) (lf : String)
    (h : row1.log_file_id = some lf) :
    tryBody env row1 = afterLog env row1 lf [] := by
  unfold tryBody; rw [h]

/-- Reduction: the `try` block when the initial log write throws. -/
theorem tryBody_none_err (env : AlarmEnv) (row1 : JobState) (e : String)
    (h1 : row1.log_file_id = none) (h2 : env.writeKladosLog = .error e) :
    tryBody env row1 = ⟨row1, [Effect.writeKladosLog row1.log_id], .error e⟩ := by
  unfold tryBody; rw [h1, h2]

/-- Reduction: the `try` block when the initial log write succeeds. -/
theorem tryBody_none_ok (env : AlarmEnv) (row1 : JobState) (f : String)
    (h1 : row1.log_file_id = none) (h2 : env.writeKladosLog = .ok f) :
    tryBody env row1 = afterLog env { row1 with log_file_id := some f } f
      [Effect.writeKladosLog row1.log_id, Effect.setLogFileId f] := by
  unfold tryBody; rw [h1, h2]

/-- Shape of the row after the `try` block: unchanged, status set to `done`,
and/or `log_file_id` set from `none` to the freshly written file id. -/
theorem tryBody_row (env : AlarmEnv) (row1 : JobState) :
    (tryBody env row1).row = row1 ∨
    (tryBody env row1).row = { row1 with status := JobStatus.done } ∨
    (∃ f, row1.log_file_id = none ∧ env.writeKladosLog = .ok f ∧
      ((tryBody env row1).row = { row1 with log_file_id := some f } ∨
       (tryBody env row1).row =
         { row1 with log_file_id := some f, status := JobStatus.done })) := by
  rcases optionCases row1.log_file_id with hlf | ⟨lf, hlf⟩
  · rcases exceptCases env.writeKladosLog with ⟨e, hw⟩ | ⟨f, hw⟩
    · rw [tryBody_none_err env row1 e hlf hw]; exact Or.inl rfl
    · rw [tryBody_none_ok env row1 f hlf hw]
      refine Or.inr (Or.inr ⟨f, hlf, hw, ?_⟩)
      rcases afterLog_row env { row1 with log_file_id := some f } f
        [Effect.writeKladosLog row1.log_id, Effect.setLogFileId f] with h | h
      · exact Or.inl h
      · exact Or.inr (h.trans rfl)
  · rw [tryBody_some env row1 lf hlf]
    rcases afterLog_row env row1 lf [] with h | h
    · exact Or.inl h
    · exact Or.inr (Or.inl h)

/-- The `error` column is untouched by the `try` block. -/
theorem tryBody_error_eq (env : AlarmEnv) (row1 : JobState) :
    (tryBody env row1).row.error = row1.error := by
  rcases tryBody_row env row1 with h | h | ⟨f, _, _, h | h⟩ <;> rw [h]

/-- The `try` block leaves the status at its entry value or sets it to
`done`; it never sets `error` status. -/
theorem tryBody_status (env : AlarmEnv) (row1 : JobState) :
    (tryBody env row1).row.status = row1.status ∨
    (tryBody env row1).row.status = JobStatus.done := by
  rcases tryBody_row env row1 with h | h | ⟨f, _, _, h | h⟩ <;> rw [h] <;> simp

/-- Once `log_file_id` is non-null, the `try` block keeps its value. -/
theorem tryBody_keeps_lfid (env : AlarmEnv) (row1 : JobState) (lf : String)
    (h : row1.log_file_id = some lf) :
    (tryBody env row1).row.log_file_id = some lf := by
  rcases tryBody_row env row1 with hr | hr | ⟨f, hn, _, hr | hr⟩
  · rw [hr, h]
  · rw [hr]; exact h
  · rw [hn] at h; cases h
  · rw [hn] at h; cases h

/-- Request, config, log id and creation time are untouched by the
`try` block. -/
theorem tryBody_frame (env : AlarmEnv) (row1 : JobState) :
    (tryBody env row1).row.request = row1.request ∧
    (tryBody env row1).row.config = row1.config ∧
    (tryBody env row1).row.log_id = row1.log_id ∧
    (tryBody env row1).row.created_at = row1.created_at := by
  rcases tryBody_row env row1 with h | h | ⟨f, _, _, h | h⟩ <;> rw [h] <;> exact ⟨rfl, rfl, rfl, rfl⟩

/-- Updating the status to the value it already has is the identity. -/
theorem setStatus_self (r : JobState) (h : r.status = JobStatus.processing) :
    { r with status := JobStatus.processing } = r := by
  cases r; simp_all

/-- `alarm` on a terminal row is a complete no-op (part_000 line 173). -/
theorem alarm_terminal (env : AlarmEnv) (row : JobState)
    (hterm : row.status = .done ∨ row.status = .error) :
    alarm env (some row) = ⟨some row, [], none⟩ := by
  unfold alarm
  rcases hterm with h | h <;> simp [h]

/-- Any single operation on a terminal row is a complete no-op. -/
theorem runOp_terminal (row : JobState)
    (hterm : row.status = .done ∨ row.status = .error) (op : Op) :
    runOp op (some row) = (some row, []) := by
  cases op with
  | start now c g req cfg => rfl
  | resume env => simp [runOp, alarm_terminal env row hterm]
  | query => rfl

/-- Reduction: `afterLog` when `processJob` throws. -/
theorem afterLog_pj_err (env : AlarmEnv) (row2 : JobState) (lf : String)
    (t : List Effect) (e : String) (h : env.processJob = .error e) :
    afterLog env row2 lf t = ⟨row2, t ++ [Effect.processJobCall], .error e⟩ := by
  unfold afterLog; rw [h]

/-- Reduction: `afterLog` when `processJob` asks for a reschedule. -/
theorem afterLog_reschedule (env : AlarmEnv) (row2 : JobState) (lf : String)
    (t : List Effect) (r : ProcessResult) (h : env.processJob = .ok r)
    (hr : r.reschedule = true) :
    afterLog env row2 lf t =
      ⟨row2, t ++ [Effect.processJobCall, Effect.setAlarm (env.now + 1000)],
       .ok ()⟩ := by
  unfold afterLog; rw [h]; simp [hr]

/-- Reduction: `afterLog` on the success path with no workflow handoff
(`request.rhiza = none`) and a succeeding log finalizer. -/
theorem afterLog_success_norhiza (env : AlarmEnv) (row2 : JobState) (lf : String)
    (t : List Effect) (r : ProcessResult) (h : env.processJob = .ok r)
    (hr : r.reschedule = false) (hrz : row2.request.rhiza = none)
    (hus : env.updateLogStatus = .ok ()) :
    afterLog env row2 lf t =
      ⟨{ row2 with status := JobStatus.done },
       t ++ [Effect.processJobCall, Effect.updateLogStatusDone lf,
             Effect.updateStatus .done],
       .ok ()⟩ := by
  unfold afterLog
  rw [h]
  simp only [hr, Bool.false_eq_true, if_false]
  unfold handoffStep
  rw [hrz]
  simp [hus]

/-- Reduction: `alarm` on a non-terminal row when the `try` block succeeds. -/
theorem alarm_res_ok (env : AlarmEnv) (row : JobState)
    (hterm : ¬(row.status = JobStatus.done ∨ row.status = JobStatus.error))
    (hres : (tryBody env { row with status := JobStatus.processing }).res = .ok ()) :
    alarm env (some row) =
      ⟨some (tryBody env { row with status := JobStatus.processing }).row,
       Effect.updateStatus .processing ::
         (tryBody env { row with status := JobStatus.processing }).tr,
       none⟩ := by
  simp [alarm, hterm, hres]

/-- Reduction: `alarm` when the `try` block throws and no log record existed
at entry: the catch updates only the job row. -/
theorem alarm_res_err_nolog (env : AlarmEnv) (row : JobState) (e : String)
    (hterm : ¬(row.status = JobStatus.done ∨ row.status = JobStatus.error))
    (hlf : row.log_file_id = none)
    (hres : (tryBody env { row with status := JobStatus.processing }).res = .error e) :
    alarm env (some row) =
      ⟨some { (tryBody env { row with status := JobStatus.processing }).row with
                status := JobStatus.error, error := some e },
       Effect.updateStatus .processing ::
         ((tryBody env { row with status := JobStatus.processing }).tr ++
           [Effect.updateStatus .error]),
       none⟩ := by
  rw [hlf] at hres
  simp [alarm, hterm, hres, hlf]

/-- Reduction: `alarm` when the `try` block throws, a log record existed at
entry, and `failKlados` succeeds. -/
theorem alarm_res_err_log_ok (env : AlarmEnv) (row : JobState) (e lf : String)
    (hterm : ¬(row.status = JobStatus.done ∨ row.status = JobStatus.error))
    (hlf : row.log_file_id = some lf)
    (hres : (tryBody env { row with status := JobStatus.processing }).res = .error e)
    (hfail : env.failKlados = .ok ()) :
    alarm env (some row) =
      ⟨some { (tryBody env { row with status := JobStatus.processing }).row with
                status := JobStatus.error, error := some e },
       Effect.updateStatus .processing ::
         ((tryBody env { row with status := JobStatus.processing }).tr ++
           [Effect.failKladosCall lf, Effect.updateStatus .error]),
       none⟩ := by
  rw [hlf] at hres
  simp [alarm, hterm, hres, hlf, hfail]

/-- Reduction: `alarm` when the `try` block throws, a log record existed at
entry, and `failKlados` itself throws: the exception escapes and the error
status is never persisted. -/
theorem alarm_res_err_log_err (env : AlarmEnv) (row : JobState) (e lf e2 : String)
    (hterm : ¬(row.status = JobStatus.done ∨ row.status = JobStatus.error))
    (hlf : row.log_file_id = some lf)
    (hres : (tryBody env { row with status := JobStatus.processing }).res = .error e)
    (hfail : env.failKlados = .error e2) :
    alarm env (some row) =
      ⟨some (tryBody env { row with status := JobStatus.processing }).row,
       Effect.updateStatus .processing ::
         ((tryBody env { row with status := JobStatus.processing }).tr ++
           [Effect.failKladosCall lf]),
       some e2⟩ := by
  rw [hlf] at hres
  simp [alarm, hterm, hres, hlf, hfail]

/-- Master shape lemma for one `alarm` run on an existing row: the row
still exists afterwards; the immutable columns are untouched; a non-null
`log_file_id` keeps its value; and the `error` column either keeps its value
(with the status matching, or with a non-error status reached from a
non-error status) or is set together with `error` status. -/
theorem alarm_row_shape (env : AlarmEnv) (row : JobState) :
    ∃ row2, (alarm env (some row)).st = some row2 ∧
      row2.request = row.request ∧ row2.config = row.config ∧
      row2.log_id = row.log_id ∧ row2.created_at = row.created_at ∧
      (∀ lf, row.log_file_id = some lf → row2.log_file_id = some lf) ∧
      ((row2.error = row.error ∧ row2.status = row.status) ∨
       (row.status ≠ JobStatus.error ∧ row2.error = row.error ∧
         row2.status ≠ JobStatus.error) ∨
       (∃ e, row2.error = some e ∧ row2.status = JobStatus.error)) := by
  by_cases hterm : row.status = JobStatus.done ∨ row.status = JobStatus.error
  · rw [alarm_terminal env row hterm]
    exact ⟨row, rfl, rfl, rfl, rfl, rfl, fun lf h => h, Or.inl ⟨rfl, rfl⟩⟩
  · have hne : row.status ≠ JobStatus.error := fun h => hterm (Or.inr h)
    have hframe := tryBody_frame env { row with status := JobStatus.processing }
    have herr := tryBody_error_eq env { row with status := JobStatus.processing }
    have hstat := tryBody_status env { row with status := JobStatus.processing }
    have hstatne : (tryBody env { row with status := JobStatus.processing }).row.status
        ≠ JobStatus.error := by
      rcases hstat with hs | hs <;> rw [hs] <;> simp
    rcases exceptCases (tryBody env { row with status := JobStatus.processing }).res
      with ⟨e, hres⟩ | ⟨⟨⟩, hres⟩
    · rcases optionCases row.log_file_id with hlf | ⟨lf, hlf⟩
      · rw [alarm_res_err_nolog env row e hterm hlf hres]
        refine ⟨_, rfl, hframe.1, hframe.2.1, hframe.2.2.1, hframe.2.2.2,
          fun lf h => ?_, Or.inr (Or.inr ⟨e, rfl, rfl⟩)⟩
        rw [hlf] at h; cases h
      · rcases exceptCases env.failKlados with ⟨e2, hf⟩ | ⟨⟨⟩, hf⟩
        · rw [alarm_res_err_log_err env row e lf e2 hterm hlf hres hf]
          exact ⟨_, rfl, hframe.1, hframe.2.1, hframe.2.2.1, hframe.2.2.2,
            fun lf' h => tryBody_keeps_lfid env _ lf' h,
            Or.inr (Or.inl ⟨hne, herr, hstatne⟩)⟩
        · rw [alarm_res_err_log_ok env row e lf hterm hlf hres hf]
          exact ⟨_, rfl, hframe.1, hframe.2.1, hframe.2.2.1, hframe.2.2.2,
            fun lf' h => tryBody_keeps_lfid env _ lf' h,
            Or.inr (Or.inr ⟨e, rfl, rfl⟩)⟩
    · rw [alarm_res_ok env row hterm hres]
      exact ⟨_, rfl, hframe.1, hframe.2.1, hframe.2.2.1, hframe.2.2.2,
        fun lf' h => tryBody_keeps_lfid env _ lf' h,
        Or.inr (Or.inl ⟨hne, herr, hstatne⟩)⟩

/-- Any operation maps an existing row to an existing row. -/
theorem runOp_some (op : Op) (row : JobState) :
    ∃ row2, (runOp op (some row)).1 = some row2 := by
  cases op with
  | start now c g req cfg => exact ⟨row, rfl⟩
  | query => exact ⟨row, rfl⟩
  | resume env =>
    obtain ⟨row2, h, _⟩ := alarm_row_shape env row
    exact ⟨row2, h⟩

/-- One operation preserves a non-null `log_file_id` value. -/
theorem runOp_keeps_lfid (op : Op) (row : JobState) (lf : String)
    (hlf : row.log_file_id = some lf) :
    ∀ row', (runOp op (some row)).1 = some row' → row'.log_file_id = some lf := by
  cases op with
  | start now c g req cfg =>
    intro row' h; rw [← Option.some.inj h]; exact hlf
  | query => intro row' h; rw [← Option.some.inj h]; exact hlf
  | resume env =>
    intro row' h
    obtain ⟨row2, h2, _, _, _, _, hkeep, _⟩ := alarm_row_shape env row
    have : row2 = row' := Option.some.inj ((h2.symm).trans h)
    rw [← this]
    exact hkeep lf hlf

/-- A whole operation sequence preserves a non-null `log_file_id` value. -/
theorem runOps_keeps_lfid (ops : List Op) (row : JobState) (lf : String)
    (hlf : row.log_file_id = some lf) :
    ∀ row', (runOps ops (some row)).1 = some row' → row'.log_file_id = some lf := by
  induction ops generalizing row with
  | nil => intro row' h; rw [← Option.some.inj h]; exact hlf
  | cons op ops ih =>
    intro row' h
    obtain ⟨rowM, hmid⟩ := runOp_some op row
    have hstep : (runOps (op :: ops) (some row)).1 = (runOps ops (some rowM)).1 := by
      show (runOps ops (runOp op (some row)).1).1 = _
      rw [hmid]
    exact ih rowM (runOp_keeps_lfid op row lf hlf rowM hmid) row' (hstep ▸ h)

/-- One operation preserves the C8 invariant. -/
theorem runOp_errorIff (op : Op) (s : Option JobState)
    (h : errorIffError s) : errorIffError (runOp op s).1 := by
  cases op with
  | query => exact h
  | start now c g req cfg =>
    cases s with
    | some row0 => exact fun row hrow => h row hrow
    | none =>
      intro row hrow
      rw [← Option.some.inj hrow]
      simp
  | resume env =>
    cases s with
    | none => exact fun row hrow => Option.noConfusion hrow
    | some row0 =>
      intro row hrow
      obtain ⟨row2, h2, _, _, _, _, _, hdisj⟩ := alarm_row_shape env row0
      have heq : row2 = row := Option.some.inj ((h2.symm).trans hrow)
      rw [← heq]
      rcases hdisj with ⟨he, hs⟩ | ⟨hne0, he, hs⟩ | ⟨e, he, hs⟩
      · rw [he, hs]; exact h row0 rfl
      · have h0 : row0.error = none := by
          by_contra hx
          exact hne0 ((h row0 rfl).1 hx)
        rw [he, h0]
        simp [hs]
      · rw [he, hs]
        simp

/-- An operation sequence preserves the C8 invariant. -/
theorem runOps_errorIff (ops : List Op) (s : Option JobState)
    (h : errorIffError s) : errorIffError (runOps ops s).1 := by
  induction ops generalizing s with
  | nil => exact h
  | cons op ops ih => exact ih (runOp op s).1 (runOp_errorIff op s h)

/-- C9: a status query returns the persisted `status` and `error` when the
row exists, and the distinct not-found result — never a default status —
when it does not. -/
theorem status_query_spec :
    (handleStatus none = StatusResponse.notFound) ∧
    (∀ row : JobState, handleStatus (some row) = .ok row.status row.error) ∧
    (∀ (st : JobStatus) (e : Option String), StatusResponse.notFound ≠ .ok st e) := by
  refine ⟨rfl, fun row => rfl, fun st e h => ?_⟩
  cases h

/-- Witness for C9 at concrete inputs. -/
theorem status_query_spec_witness :
    handleStatus none = StatusResponse.notFound ∧
    handleStatus (some sampleRow) = .ok sampleRow.status sampleRow.error ∧
    StatusResponse.notFound ≠ .ok JobStatus.accepted none :=
  ⟨status_query_spec.1, status_query_spec.2.1 sampleRow,
   status_query_spec.2.2 JobStatus.accepted none⟩

/-- C2: start is idempotent — the second start call (same job id, possibly
different payloads) leaves the JobState from the first call, performs no
side effects, and returns the same acceptance response. -/
theorem start_idempotent (now1 now2 : Nat) (c1 c2 g1 g2 : String)
    (req1 req2 : KladosRequest) (cfg1 cfg2 : KladosJobConfig)
    (hjob : req1.job_id = req2.job_id) :
    (∃ row : JobState,
      (handleStart now1 c1 g1 req1 cfg1 none).st = some row ∧
      row.request = req1 ∧ row.config = cfg1 ∧ row.status = .accepted ∧
      (handleStart now2 c2 g2 req2 cfg2
        (handleStart now1 c1 g1 req1 cfg1 none).st).st = some row) ∧
    (handleStart now2 c2 g2 req2 cfg2
      (handleStart now1 c1 g1 req1 cfg1 none).st).tr = [] ∧
    (handleStart now2 c2 g2 req2 cfg2
      (handleStart now1 c1 g1 req1 cfg1 none).st).resp =
      (handleStart now1 c1 g1 req1 cfg1 none).resp ∧
    (handleStart now1 c1 g1 req1 cfg1 none).resp =
      { accepted := true, job_id := req1.job_id } := by
  refine ⟨⟨_, rfl, rfl, rfl, rfl, rfl⟩, rfl, ?_, rfl⟩
  show ({ accepted := true, job_id := req2.job_id } : StartResponse) =
    { accepted := true, job_id := req1.job_id }
  rw [hjob]

/-- Witness for C2 at concrete inputs (two different payloads, same job id). -/
theorem start_idempotent_witness :
    sampleReq.job_id = ({ sampleReq with api_base := "other" }).job_id ∧
    ((∃ row : JobState,
      (handleStart 0 "t0" "id1" sampleReq sampleCfg none).st = some row ∧
      row.request = sampleReq ∧ row.config = sampleCfg ∧ row.status = .accepted ∧
      (handleStart 9 "t9" "id9" { sampleReq with api_base := "other" } sampleCfg
        (handleStart 0 "t0" "id1" sampleReq sampleCfg none).st).st = some row) ∧
    (handleStart 9 "t9" "id9" { sampleReq with api_base := "other" } sampleCfg
      (handleStart 0 "t0" "id1" sampleReq sampleCfg none).st).tr = [] ∧
    (handleStart 9 "t9" "id9" { sampleReq with api_base := "other" } sampleCfg
      (handleStart 0 "t0" "id1" sampleReq sampleCfg none).st).resp =
      (handleStart 0 "t0" "id1" sampleReq sampleCfg none).resp ∧
    (handleStart 0 "t0" "id1" sampleReq sampleCfg none).resp =
      { accepted := true, job_id := sampleReq.job_id }) :=
  ⟨rfl, start_idempotent 0 9 "t0" "t9" "id1" "id9" sampleReq
    { sampleReq with api_base := "other" } sampleCfg sampleCfg rfl⟩

/-- C3: terminal states are absorbing — on a row whose status is `done` or
`error`, `alarm` is a complete no-op (same state, no effects, no exception),
and so is any sequence of start/resume/query operations. -/
theorem terminal_states_absorbing (row : JobState)
    (hterm : row.status = JobStatus.done ∨ row.status = JobStatus.error) :
    (∀ env : AlarmEnv, alarm env (some row) = ⟨some row, [], none⟩) ∧
    (∀ ops : List Op, runOps ops (some row) = (some row, [])) := by
  refine ⟨fun env => alarm_terminal env row hterm, fun ops => ?_⟩
  induction ops with
  | nil => rfl
  | cons op ops ih => simp [runOps, runOp_terminal row hterm op, ih]

/-- Witness for C3 at a concrete terminal row, environment and
operation sequence. -/
theorem terminal_states_absorbing_witness :
    alarm okEnv (some doneRow) = ⟨some doneRow, [], none⟩ ∧
    runOps [Op.query, Op.resume contEnv,
      Op.start 0 "t0" "id1" sampleReq sampleCfg] (some doneRow) =
      (some doneRow, []) :=
  ⟨(terminal_states_absorbing doneRow (Or.inl rfl)).1 okEnv,
   (terminal_states_absorbing doneRow (Or.inl rfl)).2
     [Op.query, Op.resume contEnv, Op.start 0 "t0" "id1" sampleReq sampleCfg]⟩

/-- C8: in every state reachable from a fresh actor by any sequence of
start, resume and status-query operations, the `error` field is non-null
exactly when the status is `error`. -/
theorem error_iff_status_reachable (ops : List Op) (row : JobState)
    (h : (runOps ops none).1 = some row) :
    row.error ≠ none ↔ row.status = JobStatus.error :=
  runOps_errorIff ops none (fun _ hr => Option.noConfusion hr) row h

/-- Witness for C8: a concrete reachable state. -/
theorem error_iff_status_reachable_witness :
    (runOps [Op.start 0 "t0" "id1" sampleReq sampleCfg] none).1 = some sampleRow ∧
    (sampleRow.error ≠ none ↔ sampleRow.status = JobStatus.error) :=
  ⟨rfl, error_iff_status_reachable [Op.start 0 "t0" "id1" sampleReq sampleCfg]
    sampleRow rfl⟩

/-- On a row already carrying a log file id, a continue-outcome resumption
leaves the row unchanged: it only re-runs the callback and reschedules. -/
theorem alarm_continue_steady (env : AlarmEnv) (rowP : JobState) (f : String)
    (r : ProcessResult)
    (hst : rowP.status = JobStatus.processing)
    (hlf : rowP.log_file_id = some f)
    (hpj : env.processJob = .ok r) (hr : r.reschedule = true) :
    alarm env (some rowP) =
      ⟨some rowP,
       [Effect.updateStatus .processing, Effect.processJobCall,
        Effect.setAlarm (env.now + 1000)], none⟩ := by
  have hterm : ¬(rowP.status = JobStatus.done ∨ rowP.status = JobStatus.error) := by
    rw [hst]; simp
  have hres : tryBody env { rowP with status := JobStatus.processing } =
      ⟨rowP, [Effect.processJobCall, Effect.setAlarm (env.now + 1000)], .ok ()⟩ := by
    rw [setStatus_self rowP hst, tryBody_some env rowP f hlf,
      afterLog_reschedule env rowP f [] r hpj hr]
    rfl
  rw [alarm_res_ok env rowP hterm (by rw [hres]), hres]

/-- First resumption with a continue outcome: writes the initial log once,
persists the fresh log file id, reschedules. -/
theorem alarm_continue_first (env : AlarmEnv) (row0 : JobState) (f : String)
    (r : ProcessResult)
    (hterm : ¬(row0.status = JobStatus.done ∨ row0.status = JobStatus.error))
    (hlf : row0.log_file_id = none)
    (hw : env.writeKladosLog = .ok f)
    (hpj : env.processJob = .ok r) (hr : r.reschedule = true) :
    alarm env (some row0) =
      ⟨some { row0 with status := JobStatus.processing, log_file_id := some f },
       [Effect.updateStatus .processing, Effect.writeKladosLog row0.log_id,
        Effect.setLogFileId f, Effect.processJobCall,
        Effect.setAlarm (env.now + 1000)], none⟩ := by
  have hres : tryBody env { row0 with status := JobStatus.processing } =
      ⟨{ row0 with status := JobStatus.processing, log_file_id := some f },
       [Effect.writeKladosLog row0.log_id, Effect.setLogFileId f,
        Effect.processJobCall, Effect.setAlarm (env.now + 1000)], .ok ()⟩ := by
    rw [tryBody_none_ok env { row0 with status := JobStatus.processing } f hlf hw,
      afterLog_reschedule env _ f _ r hpj hr]
    rfl
  rw [alarm_res_ok env row0 hterm (by rw [hres]), hres]

/-- Non-workflow success resumption on a row already carrying a log file id:
finalizes the log and sets the status to `done`. -/
theorem alarm_success_steady (env : AlarmEnv) (rowP : JobState) (f : String)
    (r : ProcessResult)
    (hst : rowP.status = JobStatus.processing)
    (hlf : rowP.log_file_id = some f)
    (hrz : rowP.request.rhiza = none)
    (hpj : env.processJob = .ok r) (hr : r.reschedule = false)
    (hus : env.updateLogStatus = .ok ()) :
    alarm env (some rowP) =
      ⟨some { rowP with status := JobStatus.done },
       [Effect.updateStatus .processing, Effect.processJobCall,
        Effect.updateLogStatusDone f, Effect.updateStatus .done], none⟩ := by
  have hterm : ¬(rowP.status = JobStatus.done ∨ rowP.status = JobStatus.error) := by
    rw [hst]; simp
  have hres : tryBody env { rowP with status := JobStatus.processing } =
      ⟨{ rowP with status := JobStatus.done },
       [Effect.processJobCall, Effect.updateLogStatusDone f,
        Effect.updateStatus .done], .ok ()⟩ := by
    rw [setStatus_self rowP hst, tryBody_some env rowP f hlf,
      afterLog_success_norhiza env rowP f [] r hpj hr hrz hus]
    rfl
  rw [alarm_res_ok env rowP hterm (by rw [hres]), hres]

/-- Non-workflow success on the very first resumption: writes the initial
log once, finalizes it, sets the status to `done`. -/
theorem alarm_success_first (env : AlarmEnv) (row0 : JobState) (f : String)
    (r : ProcessResult)
    (hterm : ¬(row0.status = JobStatus.done ∨ row0.status = JobStatus.error))
    (hlf : row0.log_file_id = none)
    (hw : env.writeKladosLog = .ok f)
    (hrz : row0.request.rhiza = none)
    (hpj : env.processJob = .ok r) (hr : r.reschedule = false)
    (hus : env.updateLogStatus = .ok ()) :
    alarm env (some row0) =
      ⟨some { row0 with status := JobStatus.done, log_file_id := some f },
       [Effect.updateStatus .processing, Effect.writeKladosLog row0.log_id,
        Effect.setLogFileId f, Effect.processJobCall,
        Effect.updateLogStatusDone f, Effect.updateStatus .done], none⟩ := by
  have hres : tryBody env { row0 with status := JobStatus.processing } =
      ⟨{ row0 with status := JobStatus.done, log_file_id := some f },
       [Effect.writeKladosLog row0.log_id, Effect.setLogFileId f,
        Effect.processJobCall, Effect.updateLogStatusDone f,
        Effect.updateStatus .done], .ok ()⟩ := by
    rw [tryBody_none_ok env { row0 with status := JobStatus.processing } f hlf hw]
    show afterLog env
      { row0 with status := JobStatus.processing, log_file_id := some f } f
      [Effect.writeKladosLog row0.log_id, Effect.setLogFileId f] = _
    rw [afterLog_success_norhiza env
      { row0 with status := JobStatus.processing, log_file_id := some f } f
      [Effect.writeKladosLog row0.log_id, Effect.setLogFileId f] r hpj hr hrz hus]
    rfl
  rw [alarm_res_ok env row0 hterm (by rw [hres]), hres]

/-- Iterating continue-outcome resumptions on a steady row changes nothing
and never writes the log nor transitions to `done`. -/
theorem runOps_replicate_continue (envC : AlarmEnv) (rowP : JobState)
    (f : String) (r : ProcessResult)
    (hst : rowP.status = JobStatus.processing)
    (hlf : rowP.log_file_id = some f)
    (hpj : envC.processJob = .ok r) (hr : r.reschedule = true) :
    ∀ n : Nat, ∃ tr : List Effect,
      runOps (List.replicate n (Op.resume envC)) (some rowP) = (some rowP, tr) ∧
      tr.countP Effect.isWriteKladosLog = 0 ∧
      tr.countP Effect.isDoneUpdate = 0 := by
  intro n
  induction n with
  | zero => exact ⟨[], rfl, rfl, rfl⟩
  | succ n ih =>
    obtain ⟨tr, htr, hw0, hd0⟩ := ih
    refine ⟨[Effect.updateStatus .processing, Effect.processJobCall,
      Effect.setAlarm (envC.now + 1000)] ++ tr, ?_, ?_, ?_⟩
    · rw [List.replicate_succ]
      show (let p := runOp (Op.resume envC) (some rowP)
            let q := runOps (List.replicate n (Op.resume envC)) p.1
            (q.1, p.2 ++ q.2)) = _
      simp only [runOp, alarm_continue_steady envC rowP f r hst hlf hpj hr, htr]
    · rw [List.countP_append, hw0]
      rfl
    · rw [List.countP_append, hd0]
      rfl

/-- Continue any number of further times (arbitrary continue-outcome
environments) on a steady row whose log is already written, then succeed:
no further log writes, exactly one `done` transition. -/
theorem runOps_continueList_then_success (envS : AlarmEnv) (rowP : JobState)
    (f : String) (rS : ProcessResult)
    (hst : rowP.status = JobStatus.processing)
    (hlf : rowP.log_file_id = some f)
    (hrz : rowP.request.rhiza = none)
    (hpS : envS.processJob = .ok rS) (hrS : rS.reschedule = false)
    (hus : envS.updateLogStatus = .ok ()) :
    ∀ envs : List AlarmEnv,
      (∀ env ∈ envs, ∃ r, env.processJob = .ok r ∧ r.reschedule = true) →
      ∃ tr : List Effect,
        runOps (envs.map Op.resume ++ [Op.resume envS]) (some rowP) =
          (some { rowP with status := JobStatus.done }, tr) ∧
        tr.countP Effect.isWriteKladosLog = 0 ∧
        tr.countP Effect.isDoneUpdate = 1 := by
  intro envs
  induction envs with
  | nil =>
    intro _
    refine ⟨[Effect.updateStatus .processing, Effect.processJobCall,
      Effect.updateLogStatusDone f, Effect.updateStatus .done], ?_, rfl, rfl⟩
    show (let p := runOp (Op.resume envS) (some rowP)
          let q := runOps [] p.1
          (q.1, p.2 ++ q.2)) = _
    simp only [runOp, alarm_success_steady envS rowP f rS hst hlf hrz hpS hrS hus,
      runOps]
    rfl
  | cons env rest ih =>
    intro hcont
    obtain ⟨r, hpj, hr⟩ := hcont env (List.mem_cons_self env rest)
    obtain ⟨tr, htr, hw0, hd1⟩ :=
      ih (fun e he => hcont e (List.mem_cons_of_mem env he))
    refine ⟨[Effect.updateStatus .processing, Effect.processJobCall,
      Effect.setAlarm (env.now + 1000)] ++ tr, ?_, ?_, ?_⟩
    · show (let p := runOp (Op.resume env) (some rowP)
            let q := runOps (rest.map Op.resume ++ [Op.resume envS]) p.1
            (q.1, p.2 ++ q.2)) = _
      simp only [runOp, alarm_continue_steady env rowP f r hst hlf hpj hr, htr]
    · rw [List.countP_append, hw0]; rfl
    · rw [List.countP_append, hd1]; rfl

/-- C5: the initial log record is written exactly once per job and
`log_file_id` is set at most once.  Part (a): once `log_file_id` is
non-null, its value survives every operation sequence.  Part (b): in a run
where the callback signals continue `N = envs.length` times before
succeeding (outside a workflow, collaborators succeeding), `writeKladosLog`
is invoked exactly once across the `N + 1` resumptions and exactly one
`done` transition is persisted. -/
theorem log_written_once (envs : List AlarmEnv) (envS : AlarmEnv)
    (row0 : JobState) (f : String) (rS : ProcessResult)
    (h0 : row0.status = JobStatus.accepted)
    (hlf0 : row0.log_file_id = none)
    (hrz : row0.request.rhiza = none)
    (hcont : ∀ env ∈ envs, ∃ r, env.processJob = .ok r ∧ r.reschedule = true)
    (hwHead : (envs.headD envS).writeKladosLog = .ok f)
    (hpS : envS.processJob = .ok rS) (hrS : rS.reschedule = false)
    (hus : envS.updateLogStatus = .ok ()) :
    (∀ (ops : List Op) (row : JobState) (lf : String),
      row.log_file_id = some lf →
      ∀ row', (runOps ops (some row)).1 = some row' →
        row'.log_file_id = some lf) ∧
    (∃ tr : List Effect,
      runOps (envs.map Op.resume ++ [Op.resume envS]) (some row0) =
        (some { row0 with status := JobStatus.done, log_file_id := some f }, tr) ∧
      tr.countP Effect.isWriteKladosLog = 1 ∧
      tr.countP Effect.isDoneUpdate = 1) := by
  refine ⟨fun ops row lf h row' h' => runOps_keeps_lfid ops row lf h row' h', ?_⟩
  have hterm0 : ¬(row0.status = JobStatus.done ∨ row0.status = JobStatus.error) := by
    rw [h0]; simp
  cases envs with
  | nil =>
    refine ⟨[Effect.updateStatus .processing, Effect.writeKladosLog row0.log_id,
      Effect.setLogFileId f, Effect.processJobCall, Effect.updateLogStatusDone f,
      Effect.updateStatus .done], ?_, rfl, rfl⟩
    show (let p := runOp (Op.resume envS) (some row0)
          let q := runOps [] p.1
          (q.1, p.2 ++ q.2)) = _
    simp only [runOp,
      alarm_success_first envS row0 f rS hterm0 hlf0 hwHead hrz hpS hrS hus,
      runOps]
    rfl
  | cons env rest =>
    obtain ⟨r, hpj, hr⟩ := hcont env (List.mem_cons_self env rest)
    obtain ⟨tr, htr, hw0, hd1⟩ := runOps_continueList_then_success envS
      { row0 with status := JobStatus.processing, log_file_id := some f }
      f rS rfl rfl hrz hpS hrS hus rest
      (fun e he => hcont e (List.mem_cons_of_mem env he))
    refine ⟨[Effect.updateStatus .processing, Effect.writeKladosLog row0.log_id,
      Effect.setLogFileId f, Effect.processJobCall,
      Effect.setAlarm (env.now + 1000)] ++ tr, ?_, ?_, ?_⟩
    · show (let p := runOp (Op.resume env) (some row0)
            let q := runOps (rest.map Op.resume ++ [Op.resume envS]) p.1
            (q.1, p.2 ++ q.2)) = _
      simp only [runOp,
        alarm_continue_first env row0 f r hterm0 hlf0 hwHead hpj hr, htr]
    · rw [List.countP_append, hw0]; rfl
    · rw [List.countP_append, hd1]; rfl

/-- Witness for C5: one continue resumption, then success. -/
theorem log_written_once_witness :
    ∃ tr : List Effect,
      runOps (List.map Op.resume [contEnv] ++ [Op.resume okEnv])
        (some sampleRow) =
        (some { sampleRow with
                  status := JobStatus.done, log_file_id := some "file1" }, tr) ∧
      tr.countP Effect.isWriteKladosLog = 1 ∧
      tr.countP Effect.isDoneUpdate = 1 :=
  (log_written_once [contEnv] okEnv sampleRow "file1"
    { outputs := some ["o1"], reschedule := false }
    rfl rfl rfl
    (fun env he => by
      rw [List.mem_singleton] at he
      subst he
      exact ⟨{ outputs := none, reschedule := true }, rfl, rfl⟩)
    rfl rfl rfl rfl).2


/-- C6 counterexample: a run in which the processing callback throws an
Error with message `"boom"`, yet the resulting JobState does NOT get
`status = error` and `error = "boom"`: a log record existed at entry and
the failure finalizer itself throws inside the catch block, so the error
UPDATE at part_000 line 314 never runs and the row stays `processing` with
a null `error` column. -/
theorem callback_throw_not_always_recorded :
    c4env.processJob = Except.error "boom" ∧
    (alarm c4env (some c4row)).st.map JobState.status =
      some JobStatus.processing ∧
    (alarm c4env (some c4row)).st.map JobState.error = some none :=
  ⟨rfl, rfl, rfl⟩

/-- C6 (amended): a failing processing callback records its reason — if
`processJob` throws with message `X`, the callback is actually reached
(a log record exists at entry or the initial log write succeeds), and the
failure finalizer, when reached, does not itself throw, then the persisted
JobState has `status = error` and `error = X`.  (When the finalizer throws,
the exception escapes and the row keeps `processing` with a null `error`,
as the counterexample shows.) -/
theorem failure_records_reason (env : AlarmEnv) (row : JobState) (X : String)
    (hterm : ¬(row.status = JobStatus.done ∨ row.status = JobStatus.error))
    (hpj : env.processJob = .error X)
    (hfail : env.failKlados = .ok ())
    (hlog : (∃ lf, row.log_file_id = some lf) ∨ (∃ f, env.writeKladosLog = .ok f)) :
    ∃ row', (alarm env (some row)).st = some row' ∧
      row'.status = JobStatus.error ∧ row'.error = some X := by
  rcases optionCases row.log_file_id with hlf | ⟨lf, hlf⟩
  · rcases hlog with ⟨lf, hsome⟩ | ⟨f, hw⟩
    · rw [hlf] at hsome; cases hsome
    · have hlfP : ({ row with status := JobStatus.processing } : JobState).log_file_id
        = none := hlf
      have hres : (tryBody env { row with status := JobStatus.processing }).res
          = .error X := by
        rw [tryBody_none_ok env _ f hlfP hw, afterLog_pj_err env _ f _ X hpj]
      rw [alarm_res_err_nolog env row X hterm hlf hres]
      exact ⟨_, rfl, rfl, rfl⟩
  · have hlfP : ({ row with status := JobStatus.processing } : JobState).log_file_id
      = some lf := hlf
    have hres : (tryBody env { row with status := JobStatus.processing }).res
        = .error X := by
      rw [tryBody_some env _ lf hlfP, afterLog_pj_err env _ lf _ X hpj]
    rw [alarm_res_err_log_ok env row X lf hterm hlf hres hfail]
    exact ⟨_, rfl, rfl, rfl⟩

/-- Witness for C6 at a concrete row and environment. -/
theorem failure_records_reason_witness :
    ∃ row', (alarm { okEnv with processJob := .error "boom" }
      (some sampleRow)).st = some row' ∧
      row'.status = JobStatus.error ∧ row'.error = some "boom" :=
  failure_records_reason { okEnv with processJob := .error "boom" } sampleRow
    "boom" (by decide) rfl rfl (Or.inr ⟨"file1", rfl⟩)

/-- The handoff block never invokes the failure finalizer. -/
theorem handoffStep_no_failKlados (env : AlarmEnv) (req : KladosRequest)
    (lf : String) (r : ProcessResult) :
    (handoffStep env req lf r).1.countP Effect.isFailKladosCall = 0 := by
  unfold handoffStep
  repeat' split
  all_goals simp [List.countP_cons, List.countP_append, Effect.isFailKladosCall]

/-- `afterLog` adds no failure-finalizer call to the trace. -/
theorem afterLog_no_failKlados (env : AlarmEnv) (row2 : JobState) (lf : String)
    (t : List Effect) :
    (afterLog env row2 lf t).tr.countP Effect.isFailKladosCall =
      t.countP Effect.isFailKladosCall := by
  have h0 := handoffStep_no_failKlados env row2.request lf
  unfold afterLog
  cases hpj : env.processJob with
  | error e => simp [List.countP_append, Effect.isFailKladosCall]
  | ok r =>
    by_cases hr : r.reschedule
    · simp [hr, List.countP_append, Effect.isFailKladosCall]
    · simp only [hr, Bool.false_eq_true, if_false]
      cases hh : handoffStep env row2.request lf r with
      | mk ht hres =>
        have h1 : ht.countP Effect.isFailKladosCall = 0 := by
          have := h0 r
          rw [hh] at this
          exact this
        cases hres with
        | error e => simp [List.countP_append, h1, Effect.isFailKladosCall]
        | ok u =>
          cases hus : env.updateLogStatus with
          | error e => simp [List.countP_append, h1, Effect.isFailKladosCall]
          | ok u2 => simp [List.countP_append, h1, Effect.isFailKladosCall]

/-- The whole `try` block never invokes the failure finalizer. -/
theorem tryBody_no_failKlados (env : AlarmEnv) (row1 : JobState) :
    (tryBody env row1).tr.countP Effect.isFailKladosCall = 0 := by
  rcases optionCases row1.log_file_id with hlf | ⟨lf, hlf⟩
  · rcases exceptCases env.writeKladosLog with ⟨e, hw⟩ | ⟨f, hw⟩
    · rw [tryBody_none_err env row1 e hlf hw]; rfl
    · rw [tryBody_none_ok env row1 f hlf hw, afterLog_no_failKlados]; rfl
  · rw [tryBody_some env row1 lf hlf, afterLog_no_failKlados]; rfl

/-- Continue outcome when a log record already existed at entry, on a
general non-terminal row. -/
theorem alarm_continue_haslog (env : AlarmEnv) (row : JobState) (lf : String)
    (r : ProcessResult)
    (hterm : ¬(row.status = JobStatus.done ∨ row.status = JobStatus.error))
    (hlf : row.log_file_id = some lf)
    (hpj : env.processJob = .ok r) (hr : r.reschedule = true) :
    alarm env (some row) =
      ⟨some { row with status := JobStatus.processing },
       [Effect.updateStatus .processing, Effect.processJobCall,
        Effect.setAlarm (env.now + 1000)], none⟩ := by
  have hres : tryBody env { row with status := JobStatus.processing } =
      ⟨{ row with status := JobStatus.processing },
       [Effect.processJobCall, Effect.setAlarm (env.now + 1000)], .ok ()⟩ := by
    rw [tryBody_some env { row with status := JobStatus.processing } lf hlf,
      afterLog_reschedule env _ lf [] r hpj hr]
    rfl
  rw [alarm_res_ok env row hterm (by rw [hres]), hres]

/-- C1 counterexample: the callback fails in the same `alarm` invocation
that wrote the log record; the final state has a log record
(`log_file_id = "file1"`) and status `error`, yet `failKlados` was never
invoked — the catch block reads the stale row loaded at entry (part_000
line 304), so the claim fails for this case. -/
theorem stale_log_failure_skips_failKlados :
    (alarm c1env (some sampleRow)).st =
      some { sampleRow with
               status := JobStatus.error, log_file_id := some "file1",
               error := some "boom" } ∧
    (alarm c1env (some sampleRow)).tr.countP Effect.isFailKladosCall = 0 :=
  ⟨rfl, rfl⟩

/-- C1 (amended): the failure finalizer is driven by the `log_file_id` of
the row loaded at entry.  (a) The `try` block itself never invokes
`failKlados`.  (b) If no log record existed at entry (even if one was
written during this invocation), a failing `try` block is recorded only in
the JobState `error` field, with no `failKlados` call.  (c) If a log record
existed at entry and the failure finalizer succeeds, `failKlados` is
invoked with that id before the `error` status update. -/
theorem failure_finalizer_policy (env : AlarmEnv) (row : JobState) (e : String)
    (hterm : ¬(row.status = JobStatus.done ∨ row.status = JobStatus.error))
    (hres : (tryBody env { row with status := JobStatus.processing }).res =
      .error e) :
    ((tryBody env { row with status := JobStatus.processing }).tr.countP
        Effect.isFailKladosCall = 0) ∧
    (row.log_file_id = none →
      alarm env (some row) =
        ⟨some { (tryBody env { row with status := JobStatus.processing }).row with
                  status := JobStatus.error, error := some e },
         Effect.updateStatus .processing ::
           ((tryBody env { row with status := JobStatus.processing }).tr ++
             [Effect.updateStatus .error]), none⟩) ∧
    (∀ lf, row.log_file_id = some lf → env.failKlados = .ok () →
      alarm env (some row) =
        ⟨some { (tryBody env { row with status := JobStatus.processing }).row with
                  status := JobStatus.error, error := some e },
         Effect.updateStatus .processing ::
           ((tryBody env { row with status := JobStatus.processing }).tr ++
             [Effect.failKladosCall lf, Effect.updateStatus .error]), none⟩) :=
  ⟨tryBody_no_failKlados env { row with status := JobStatus.processing },
   fun hlf => alarm_res_err_nolog env row e hterm hlf hres,
   fun lf hlf hfail => alarm_res_err_log_ok env row e lf hterm hlf hres hfail⟩

/-- Witness for C1 (amended) at a concrete row and environment. -/
theorem failure_finalizer_policy_witness :
    ((tryBody c1env { sampleRow with status := JobStatus.processing }).tr.countP
        Effect.isFailKladosCall = 0) ∧
    alarm c1env (some sampleRow) =
      ⟨some { (tryBody c1env
                { sampleRow with status := JobStatus.processing }).row with
                status := JobStatus.error, error := some "boom" },
       Effect.updateStatus .processing ::
         ((tryBody c1env { sampleRow with status := JobStatus.processing }).tr ++
           [Effect.updateStatus .error]), none⟩ :=
  ⟨(failure_finalizer_policy c1env sampleRow "boom" (by decide) rfl).1,
   (failure_finalizer_policy c1env sampleRow "boom" (by decide) rfl).2.1 rfl⟩

/-- C4 counterexample: when the failure finalizer itself throws inside the
catch block, the exception escapes `alarm` and the job is left stuck in
`processing` with no terminal status persisted, so the claim that no
exception ever escapes fails. -/
theorem failKlados_throw_escapes :
    (alarm c4env (some c4row)).exn = some "net down" ∧
    (alarm c4env (some c4row)).st =
      some { c4row with status := JobStatus.processing } :=
  ⟨rfl, rfl⟩

/-- C4 (amended): provided the failure finalizer does not throw, no
exception escapes `alarm`, and a failing `try` block still marks the job
`error` (with the thrown message persisted) rather than leaving it in
`processing`. -/
theorem no_escape_when_finalizer_ok (env : AlarmEnv) (s : Option JobState)
    (hfail : env.failKlados = .ok ()) :
    (alarm env s).exn = none ∧
    (∀ row e, s = some row →
      ¬(row.status = JobStatus.done ∨ row.status = JobStatus.error) →
      (tryBody env { row with status := JobStatus.processing }).res = .error e →
      ∃ row', (alarm env s).st = some row' ∧
        row'.status = JobStatus.error ∧ row'.error = some e) := by
  constructor
  · cases s with
    | none => rfl
    | some row =>
      by_cases hterm : row.status = JobStatus.done ∨ row.status = JobStatus.error
      · rw [alarm_terminal env row hterm]
      · rcases exceptCases
          (tryBody env { row with status := JobStatus.processing }).res with
          ⟨e, hres⟩ | ⟨⟨⟩, hres⟩
        · rcases optionCases row.log_file_id with hlf | ⟨lf, hlf⟩
          · rw [alarm_res_err_nolog env row e hterm hlf hres]
          · rw [alarm_res_err_log_ok env row e lf hterm hlf hres hfail]
        · rw [alarm_res_ok env row hterm hres]
  · intro row e hs hterm hres
    subst hs
    rcases optionCases row.log_file_id with hlf | ⟨lf, hlf⟩
    · rw [alarm_res_err_nolog env row e hterm hlf hres]
      exact ⟨_, rfl, rfl, rfl⟩
    · rw [alarm_res_err_log_ok env row e lf hterm hlf hres hfail]
      exact ⟨_, rfl, rfl, rfl⟩

/-- Witness for C4 (amended) at a concrete state and environment. -/
theorem no_escape_when_finalizer_ok_witness :
    (alarm c1env (some sampleRow)).exn = none ∧
    (∃ row', (alarm c1env (some sampleRow)).st = some row' ∧
      row'.status = JobStatus.error ∧ row'.error = some "boom") :=
  ⟨(no_escape_when_finalizer_ok c1env (some sampleRow) rfl).1,
   (no_escape_when_finalizer_ok c1env (some sampleRow) rfl).2 sampleRow "boom"
     rfl (by decide) rfl⟩

/-- C7 counterexample: on a first resumption whose callback signals
continue, `log_file_id` does change (from null to the freshly written log
file id), so the claim that every JobState field other than `status` is
unchanged on the continue path fails. -/
theorem continue_changes_log_file_id :
    sampleRow.log_file_id = none ∧
    (alarm contEnv (some sampleRow)).st =
      some { sampleRow with
               status := JobStatus.processing, log_file_id := some "file1" } ∧
    (alarm contEnv (some sampleRow)).tr.countP Effect.isSetAlarm = 1 :=
  ⟨rfl, rfl, rfl⟩

/-- C7 (amended): on a continue outcome the handler schedules the next
resumption at `now + 1000` and returns with status `processing`; request,
config, log_id, created_at and error are unchanged; `log_file_id` is
unchanged when already set, and is set to the freshly written log file id
when it was null at entry (the initial log write precedes the callback).
The full output equality also shows no handoff and no log finalization. -/
theorem continue_frame (env : AlarmEnv) (row : JobState) (r : ProcessResult)
    (hterm : ¬(row.status = JobStatus.done ∨ row.status = JobStatus.error))
    (hpj : env.processJob = .ok r) (hr : r.reschedule = true) :
    (∀ lf, row.log_file_id = some lf →
      alarm env (some row) =
        ⟨some { row with status := JobStatus.processing },
         [Effect.updateStatus .processing, Effect.processJobCall,
          Effect.setAlarm (env.now + 1000)], none⟩) ∧
    (∀ f, row.log_file_id = none → env.writeKladosLog = .ok f →
      alarm env (some row) =
        ⟨some { row with status := JobStatus.processing, log_file_id := some f },
         [Effect.updateStatus .processing, Effect.writeKladosLog row.log_id,
          Effect.setLogFileId f, Effect.processJobCall,
          Effect.setAlarm (env.now + 1000)], none⟩) := by
  exact ⟨fun lf hlf => alarm_continue_haslog env row lf r hterm hlf hpj hr,
    fun f hlf hw => alarm_continue_first env row f r hterm hlf hw hpj hr⟩

/-- Witness for C7 (amended): a first resumption with continue outcome. -/
theorem continue_frame_witness :
    alarm contEnv (some sampleRow) =
      ⟨some { sampleRow with
                status := JobStatus.processing, log_file_id := some "file1" },
       [Effect.updateStatus .processing, Effect.writeKladosLog sampleRow.log_id,
        Effect.setLogFileId "file1", Effect.processJobCall,
        Effect.setAlarm (contEnv.now + 1000)], none⟩ :=
  (continue_frame contEnv sampleRow { outputs := none, reschedule := true }
    (by decide) rfl rfl).2 "file1" rfl rfl

/-- C10: when the callback returns both `reschedule = true` and non-empty
outputs, the reschedule flag wins: the handler reschedules at `now + 1000`
and returns with status `processing`; no rhiza fetch, no `interpretThen`,
no handoff-log write, no log finalization and no `done` transition happen —
the outputs are discarded. -/
theorem reschedule_precedence (env : AlarmEnv) (row : JobState)
    (r : ProcessResult) (outs : List String) (lf f : String)
    (hterm : ¬(row.status = JobStatus.done ∨ row.status = JobStatus.error))
    (hpj : env.processJob = .ok r) (hr : r.reschedule = true)
    (houts : r.outputs = some outs) (hne : outs ≠ [])
    (hlog : row.log_file_id = some lf ∨
      (row.log_file_id = none ∧ env.writeKladosLog = .ok f)) :
    (alarm env (some row)).exn = none ∧
    (∃ row', (alarm env (some row)).st = some row' ∧
      row'.status = JobStatus.processing) ∧
    Effect.setAlarm (env.now + 1000) ∈ (alarm env (some row)).tr ∧
    (alarm env (some row)).tr.countP Effect.isFetchRhiza = 0 ∧
    (alarm env (some row)).tr.countP Effect.isInterpretThenCall = 0 ∧
    (alarm env (some row)).tr.countP Effect.isUpdateLogWithHandoffs = 0 ∧
    (alarm env (some row)).tr.countP Effect.isUpdateLogStatusDone = 0 ∧
    (alarm env (some row)).tr.countP Effect.isDoneUpdate = 0 := by
  rcases hlog with hlf | ⟨hlf, hw⟩
  · rw [alarm_continue_haslog env row lf r hterm hlf hpj hr]
    refine ⟨rfl, ⟨_, rfl, rfl⟩, ?_, rfl, rfl, rfl, rfl, rfl⟩
    simp
  · rw [alarm_continue_first env row f r hterm hlf hw hpj hr]
    refine ⟨rfl, ⟨_, rfl, rfl⟩, ?_, rfl, rfl, rfl, rfl, rfl⟩
    simp

/-- Witness for C10 at a concrete row and environment. -/
theorem reschedule_precedence_witness :
    (alarm c10env (some c4row)).exn = none ∧
    (∃ row', (alarm c10env (some c4row)).st = some row' ∧
      row'.status = JobStatus.processing) ∧
    Effect.setAlarm (c10env.now + 1000) ∈ (alarm c10env (some c4row)).tr ∧
    (alarm c10env (some c4row)).tr.countP Effect.isFetchRhiza = 0 ∧
    (alarm c10env (some c4row)).tr.countP Effect.isInterpretThenCall = 0 ∧
    (alarm c10env (some c4row)).tr.countP Effect.isUpdateLogWithHandoffs = 0 ∧
    (alarm c10env (some c4row)).tr.countP Effect.isUpdateLogStatusDone = 0 ∧
    (alarm c10env (some c4row)).tr.countP Effect.isDoneUpdate = 0 :=
  reschedule_precedence c10env c4row
    { outputs := some ["o1"], reschedule := true } ["o1"] "f0" "file1"
    (by decide) rfl rfl rfl (by decide) (Or.inl rfl)

end KladosDO
